import Mathlib

/-!
# Circuit editor state layer: shallow embedding

A shallow embedding of the in-memory graph-editing state layer of the
circuit-editor frontend (`src/lib/circuit_editor/CircuitEditorState.svelte.ts`),
together with proofs of the specified properties.

Conventions of the embedding:
* JavaScript numbers are modelled as `Rat` (positions, measured dimensions)
  or `Nat` (counters, which only ever hold nonnegative integers here).
* JavaScript's falsy-defaulting `a || b` is modelled by explicit helpers
  (`jsOrStr`, `jsOrNat`, `jsOrRat`, …) that treat `""`/`0`/`undefined` as falsy.
* `undefined` optional fields are `Option` values.
* Methods that mutate `this` become functions `State → … → State × result`.
* The decimal rendering of a number in a template literal
  (`` `${componentType}-${counter}` ``) is modelled by `natStr`.
-/

namespace CircuitEditor

/-- JS `v || d` for an optional string: `undefined` and `""` are falsy. -/
def jsOrStr (v : Option String) (d : String) : String :=
  match v with
  | some s => if s = "" then d else s
  | none => d

/-- JS `v || undefined` for an optional string: `""` collapses to `undefined`. -/
def jsStrOrUndef (v : Option String) : Option String :=
  match v with
  | some s => if s = "" then none else some s
  | none => none

/-- JS `v || d` for an optional number holding a nonnegative integer:
`undefined` and `0` are falsy. -/
def jsOrNat (v : Option Nat) (d : Nat) : Nat :=
  match v with
  | some n => if n = 0 then d else n
  | none => d

/-- JS `v || d` for an optional number: `undefined` and `0` are falsy. -/
def jsOrRat (v : Option Rat) (d : Rat) : Rat :=
  match v with
  | some x => if x = 0 then d else x
  | none => d

/-- JS `v || d` for an optional boolean: `undefined` and `false` are falsy. -/
def jsOrBool (v : Option Bool) (d : Bool) : Bool :=
  match v with
  | some b => b || d
  | none => d

/-- Decimal digits of a natural number, least fuel first; models the decimal
rendering performed by a JS template literal. `fuel` bounds the recursion. -/
def natDigitsAux : Nat → Nat → List Char
  | 0, _ => []
  | fuel + 1, n =>
    if n < 10 then [Nat.digitChar n]
    else natDigitsAux fuel (n / 10) ++ [Nat.digitChar (n % 10)]

/-- Decimal digits of a natural number, most significant first. -/
def natDigits (n : Nat) : List Char :=
  natDigitsAux (n + 1) n

/-- Decimal digit string of a natural number (JS `${n}` for a nonnegative
integer). -/
def natStr (n : Nat) : String :=
  ⟨natDigits n⟩

/-- The four component types of the editor (`ComponentType`). -/
inductive ComponentType where
  | voltage
  | resistor
  | capacitor
  | inductor
deriving DecidableEq, Repr

/-- The string a component type interpolates to in a template literal. -/
def componentTypeStr : ComponentType → String
  | .voltage => "voltage"
  | .resistor => "resistor"
  | .capacitor => "capacitor"
  | .inductor => "inductor"

/-- A 2-D position `{x, y}`. -/
structure Pos where
  x : Rat
  y : Rat
deriving DecidableEq, Repr

/-- A node's `data` payload: component type and optional display label. -/
structure NodeData where
  type : ComponentType
  label : Option String
deriving DecidableEq, Repr

/-- Measured dimensions `{width?, height?}` attached to a node by the
rendering library. -/
structure Measured where
  width : Option Rat
  height : Option Rat
deriving DecidableEq, Repr

/-- A circuit node (`CircuitNode extends Node`): the fields of the xyflow
`Node` this codebase reads or writes. -/
structure CircuitNode where
  id : String
  type : Option String
  position : Pos
  data : NodeData
  measured : Option Measured
  selected : Option Bool
  dragging : Option Bool
deriving DecidableEq, Repr

/-- An edge (`Edge` from xyflow): the fields this codebase reads or writes. -/
structure Edge where
  id : String
  source : String
  sourceHandle : Option String
  target : String
  targetHandle : Option String
  type : Option String
  style : Option String
deriving DecidableEq, Repr

/-- The mutable fields of `CircuitEditorState` that the graph operations
touch (`_nodeCounter`, `_nodes`, `_edges`; the grid size is the constant 20). -/
structure CircuitEditorState where
  nodeCounter : Nat
  nodes : List CircuitNode
  edges : List Edge
deriving DecidableEq, Repr

/-- A freshly constructed `CircuitEditorState`: counter 1, empty collections. -/
def freshState : CircuitEditorState :=
  { nodeCounter := 1, nodes := [], edges := [] }

/-- The background grid size (`_gridSize = 20`). -/
def gridSize : Rat := 20

/-- JS `Math.round`: round half towards positive infinity. -/
def jsRound (x : Rat) : Int :=
  ⌊x + 1 / 2⌋

/-- `snapToGrid`: round each coordinate to `Math.round(c / gridSize) * gridSize`. -/
def snapToGrid (position : Pos) : Pos :=
  { x := (jsRound (position.x / gridSize)) * gridSize
    y := (jsRound (position.y / gridSize)) * gridSize }

/-- The node id minted for a component type at a counter value
(`` `${componentType}-${counter}` ``). -/
def mkNodeId (componentType : ComponentType) (counter : Nat) : String :=
  componentTypeStr componentType ++ "-" ++ natStr counter

/-- `addComponentInternal(componentType, position, label)`: mint
`` `${componentType}-${this._nodeCounter++}` ``, snap the position, append the
new node and return its id. -/
def addComponentInternal (st : CircuitEditorState) (componentType : ComponentType)
    (position : Pos) (label : Option String) : CircuitEditorState × String :=
  let nodeId := mkNodeId componentType st.nodeCounter
  let snappedPosition := snapToGrid position
  let newNode : CircuitNode :=
    { id := nodeId
      type := some "electrical"
      position := snappedPosition
      data := { type := componentType, label := label }
      measured := none
      selected := none
      dragging := none }
  ({ st with nodeCounter := st.nodeCounter + 1, nodes := st.nodes ++ [newNode] },
   nodeId)

/-- `addComponent(componentType)`: the public interface, which always uses the
default position `{x: 400, y: 300}` and no label. -/
def addComponent (st : CircuitEditorState) (componentType : ComponentType) :
    CircuitEditorState × String :=
  addComponentInternal st componentType ⟨400, 300⟩ none

/-- `removeNode(nodeId)`: filter the node out, cascade-remove every edge whose
source or target is `nodeId`, return whether a node was removed. -/
def removeNode (st : CircuitEditorState) (nodeId : String) :
    CircuitEditorState × Bool :=
  let initialLength := st.nodes.length
  let nodes := st.nodes.filter fun node => node.id != nodeId
  let edges := st.edges.filter fun edge =>
    edge.source != nodeId && edge.target != nodeId
  ({ st with nodes := nodes, edges := edges },
   decide (nodes.length < initialLength))

/-- `removeEdge(edgeId)`: filter the edge out, return whether one was removed. -/
def removeEdge (st : CircuitEditorState) (edgeId : String) :
    CircuitEditorState × Bool :=
  let initialLength := st.edges.length
  let edges := st.edges.filter fun edge => edge.id != edgeId
  ({ st with edges := edges }, decide (edges.length < initialLength))

/-- The default edge style string of `addEdge`. -/
def defaultEdgeStyle : String := "stroke: #000000; stroke-width: 3px;"

/-- The predicate `addEdge` uses to look for an existing edge between two
endpoints, in either direction. -/
def edgeMatches (sourceId targetId : String) (edge : Edge) : Bool :=
  (edge.source == sourceId && edge.target == targetId) ||
  (edge.source == targetId && edge.target == sourceId)

/-- `addEdge(sourceId, targetId, edgeId?, style?)`: return the id of an existing
edge between the two endpoints if any; otherwise append a new `step` edge whose
id is the supplied `edgeId` or, when that is falsy, `"e" + sourceId + "-" +
targetId`, with the supplied or default style. -/
def addEdge (st : CircuitEditorState) (sourceId targetId : String)
    (edgeId : Option String) (style : Option String) :
    CircuitEditorState × String :=
  let id := jsOrStr edgeId ("e" ++ sourceId ++ "-" ++ targetId)
  match st.edges.find? (edgeMatches sourceId targetId) with
  | some existingEdge => (st, existingEdge.id)
  | none =>
    let newEdge : Edge :=
      { id := id
        source := sourceId
        sourceHandle := none
        target := targetId
        targetHandle := none
        type := some "step"
        style := some (jsOrStr style defaultEdgeStyle) }
    ({ st with edges := st.edges ++ [newEdge] }, id)

/-- `getNodeById(nodeId)`. -/
def getNodeById (st : CircuitEditorState) (nodeId : String) : Option CircuitNode :=
  st.nodes.find? fun node => node.id == nodeId

/-- `getEdgeById(edgeId)`. -/
def getEdgeById (st : CircuitEditorState) (edgeId : String) : Option Edge :=
  st.edges.find? fun edge => edge.id == edgeId

/-- `updateNodePosition(nodeId, position)`: snap and overwrite the position of
the node found by `findIndex`, or return `false` when the id is absent. -/
def updateNodePosition (st : CircuitEditorState) (nodeId : String)
    (position : Pos) : CircuitEditorState × Bool :=
  match st.nodes.findIdx? (fun node => node.id == nodeId) with
  | none => (st, false)
  | some nodeIndex =>
    let snappedPosition := snapToGrid position
    let nodes :=
      st.nodes.modify (fun node => { node with position := snappedPosition })
        nodeIndex
    ({ st with nodes := nodes }, true)

/-- A `Partial<CircuitNode['data']>`: fields absent from the partial leave the
old value in place under JS object spread. -/
structure PartialNodeData where
  type : Option ComponentType
  label : Option (Option String)
deriving DecidableEq, Repr

/-- JS `{...old, ...partial}` on the `data` payload. -/
def mergeNodeData (old : NodeData) (partialData : PartialNodeData) : NodeData :=
  { type := partialData.type.getD old.type
    label := partialData.label.getD old.label }

/-- `updateNodeData(nodeId, data)`: shallow-merge into the node found by
`findIndex`, or return `false` when the id is absent. -/
def updateNodeData (st : CircuitEditorState) (nodeId : String)
    (data : PartialNodeData) : CircuitEditorState × Bool :=
  match st.nodes.findIdx? (fun node => node.id == nodeId) with
  | none => (st, false)
  | some nodeIndex =>
    let nodes :=
      st.nodes.modify (fun node => { node with data := mergeNodeData node.data data })
        nodeIndex
    ({ st with nodes := nodes }, true)

/-- `clear()`: empty both collections and reset the counter to 1. -/
def clear (st : CircuitEditorState) : CircuitEditorState :=
  { st with nodes := [], edges := [], nodeCounter := 1 }

/-- `getNodesByType(componentType)`. -/
def getNodesByType (st : CircuitEditorState) (componentType : ComponentType) :
    List CircuitNode :=
  st.nodes.filter fun node => node.data.type == componentType

/-- `getConnectedEdges(nodeId)`: every edge whose source or target is `nodeId`. -/
def getConnectedEdges (st : CircuitEditorState) (nodeId : String) : List Edge :=
  st.edges.filter fun edge => edge.source == nodeId || edge.target == nodeId

/-- The per-type tallies of `getCircuitStats`. -/
structure ComponentCounts where
  voltage : Nat
  resistor : Nat
  capacitor : Nat
  inductor : Nat
deriving DecidableEq, Repr

/-- Increment the tally for one component type. -/
def incCount (c : ComponentCounts) : ComponentType → ComponentCounts
  | .voltage => { c with voltage := c.voltage + 1 }
  | .resistor => { c with resistor := c.resistor + 1 }
  | .capacitor => { c with capacitor := c.capacitor + 1 }
  | .inductor => { c with inductor := c.inductor + 1 }

/-- The record returned by `getCircuitStats`. -/
structure CircuitStats where
  totalNodes : Nat
  totalEdges : Nat
  componentCounts : ComponentCounts
deriving DecidableEq, Repr

/-- `getCircuitStats()`: lengths of both collections plus one pass tallying
nodes by component type. -/
def getCircuitStats (st : CircuitEditorState) : CircuitStats :=
  { totalNodes := st.nodes.length
    totalEdges := st.edges.length
    componentCounts :=
      st.nodes.foldl (fun c node => incCount c node.data.type) ⟨0, 0, 0, 0⟩ }

/-- The metadata accepted by `importCircuit` (`metadata?: { nodeCounter?: number }`). -/
structure ImportMetadata where
  nodeCounter : Option Nat
deriving DecidableEq, Repr

/-- The payload accepted by `importCircuit`. -/
structure ImportPayload where
  nodes : List CircuitNode
  edges : List Edge
  metadata : Option ImportMetadata
deriving DecidableEq, Repr

/-- `importCircuit(circuitData)`: replace both collections (defaulting each
edge's `type` to `"step"` and collapsing falsy styles to `undefined`), then set
`_nodeCounter = circuitData.metadata?.nodeCounter || this._nodes.length + 1`. -/
def importCircuit (st : CircuitEditorState) (circuitData : ImportPayload) :
    CircuitEditorState :=
  let nodes := circuitData.nodes
  let edges := circuitData.edges.map fun edge =>
    { edge with
      type := some (jsOrStr edge.type "step")
      style := jsStrOrUndef edge.style }
  { st with
    nodes := nodes
    edges := edges
    nodeCounter :=
      jsOrNat (circuitData.metadata.bind fun m => m.nodeCounter)
        (nodes.length + 1) }

/-- Modelled from the spec: the `Measured` schema of the wire format
(`measured: {width, height}`), from the generated `api-types` file that is not
part of the repository sources. -/
structure ApiMeasured where
  width : Rat
  height : Rat
deriving DecidableEq, Repr

/-- Modelled from the spec: the `SvelteFlowNode` schema of the wire format
(`{id, type, position, data, measured, selected, dragging}`), from the
generated `api-types` file that is not part of the repository sources. -/
structure ApiNode where
  id : String
  type : String
  position : Pos
  data : NodeData
  measured : ApiMeasured
  selected : Bool
  dragging : Bool
deriving DecidableEq, Repr

/-- Modelled from the spec: the `SvelteFlowEdge` schema of the wire format
(`{id, source, sourceHandle, target, targetHandle, style?}`), from the
generated `api-types` file that is not part of the repository sources. -/
structure ApiEdge where
  id : String
  source : String
  sourceHandle : String
  target : String
  targetHandle : String
  style : Option String
deriving DecidableEq, Repr

/-- Modelled from the spec: the `Metadata` schema of the wire format
(`{nodeCounter, lastModified}`), from the generated `api-types` file that is
not part of the repository sources. -/
structure ApiMetadata where
  nodeCounter : Nat
  lastModified : String
deriving DecidableEq, Repr

/-- Modelled from the spec: the `SvelteFlowModel` schema of the wire format,
from the generated `api-types` file that is not part of the repository
sources. -/
structure SvelteFlowModel where
  nodes : List ApiNode
  edges : List ApiEdge
  metadata : ApiMetadata
deriving DecidableEq, Repr

/-- `importFromApi(apiModel)`: convert wire nodes (keeping only the component
type of `data`, forcing `type: "electrical"`) and wire edges (forcing
`type: "step"`, collapsing falsy styles), then delegate to `importCircuit`. -/
def importFromApi (st : CircuitEditorState) (apiModel : SvelteFlowModel) :
    CircuitEditorState :=
  let convertedNodes : List CircuitNode := apiModel.nodes.map fun node =>
    { id := node.id
      type := some "electrical"
      position := node.position
      data := { type := node.data.type, label := none }
      measured := some { width := some node.measured.width
                         height := some node.measured.height }
      selected := some node.selected
      dragging := some node.dragging }
  let convertedEdges : List Edge := apiModel.edges.map fun edge =>
    { id := edge.id
      source := edge.source
      sourceHandle := some edge.sourceHandle
      target := edge.target
      targetHandle := some edge.targetHandle
      type := some "step"
      style := jsStrOrUndef edge.style }
  importCircuit st
    { nodes := convertedNodes
      edges := convertedEdges
      metadata := some { nodeCounter := some apiModel.metadata.nodeCounter } }

/-- `exportToApi()`: produce the wire model, defaulting `type` to
`"electrical"`, measured dimensions to 96, `selected`/`dragging` to `false`,
`sourceHandle` to `"right"`, `targetHandle` to `"left"`, and collapsing falsy
styles to `null`. The `lastModified` wall-clock timestamp is passed in as
`now`. -/
def exportToApi (st : CircuitEditorState) (now : String) : SvelteFlowModel :=
  let apiNodes : List ApiNode := st.nodes.map fun node =>
    { id := node.id
      type := jsOrStr node.type "electrical"
      position := node.position
      data := node.data
      measured := { width := jsOrRat (node.measured.bind fun m => m.width) 96
                    height := jsOrRat (node.measured.bind fun m => m.height) 96 }
      selected := jsOrBool node.selected false
      dragging := jsOrBool node.dragging false }
  let apiEdges : List ApiEdge := st.edges.map fun edge =>
    { id := edge.id
      source := edge.source
      sourceHandle := jsOrStr edge.sourceHandle "right"
      target := edge.target
      targetHandle := jsOrStr edge.targetHandle "left"
      style := jsStrOrUndef edge.style }
  { nodes := apiNodes
    edges := apiEdges
    metadata := { nodeCounter := st.nodeCounter, lastModified := now } }

/-- The record returned by `validateCircuit`. -/
structure ValidationResult where
  isValid : Bool
  errors : List String
  warnings : List String
deriving DecidableEq, Repr

/-- `validateCircuit()`: warn on disconnected nodes and on a non-empty circuit
without a voltage source; the error list is never populated. -/
def validateCircuit (st : CircuitEditorState) : ValidationResult :=
  let errors : List String := []
  let disconnectedNodes := st.nodes.filter fun node =>
    decide ((getConnectedEdges st node.id).length = 0)
  let disconnectedWarnings : List String :=
    if disconnectedNodes.length > 0 then
      [natStr disconnectedNodes.length ++ " disconnected component(s) found"]
    else []
  let voltageNodes := getNodesByType st .voltage
  let voltageWarnings : List String :=
    if voltageNodes.length = 0 ∧ st.nodes.length > 0 then
      ["No voltage source found in circuit"]
    else []
  { isValid := decide (errors.length = 0)
    errors := errors
    warnings := disconnectedWarnings ++ voltageWarnings }

/-- A run of `addComponent` calls: the final state and the returned node ids,
in call order. -/
def runAdds : CircuitEditorState → List ComponentType →
    CircuitEditorState × List String
  | st, [] => (st, [])
  | st, t :: ts =>
    let r := addComponent st t
    let rest := runAdds r.1 ts
    (rest.1, r.2 :: rest.2)

/-- Whether every character of a list is a decimal digit. -/
def isDigits (cs : List Char) : Bool :=
  cs.all fun c => decide ('0' ≤ c ∧ c ≤ '9')

/-- The numeric value of a list of decimal digit characters. -/
def digitsVal (cs : List Char) : Nat :=
  cs.foldl (fun n c => n * 10 + (c.toNat - '0'.toNat)) 0

/-- Parse a nonempty all-digit character list as a decimal number. -/
def decodeDigits (cs : List Char) : Option Nat :=
  if cs ≠ [] ∧ isDigits cs then some (digitsVal cs) else none

/-- Strip an expected leading character sequence, returning the remainder. -/
def stripLeadChars : List Char → List Char → Option (List Char)
  | [], cs => some cs
  | _ :: _, [] => none
  | p :: ps, c :: cs => if c = p then stripLeadChars ps cs else none

/-- The numeric sequence suffix a node id carries for a given component-type
id prefix: strip the leading `componentTypeStr t ++ "-"` and parse the decimal
remainder. -/
def suffixOf (t : ComponentType) (s : String) : Option Nat :=
  match stripLeadChars (componentTypeStr t ++ "-").data s.data with
  | some rest => decodeDigits rest
  | none => none

/-- The invariant of the edge collection: at most one edge between any
unordered pair of endpoints. -/
def atMostOneEdgePerPair (st : CircuitEditorState) : Prop :=
  ∀ a b : String, (st.edges.filter (edgeMatches a b)).length ≤ 1

/-- What one round trip through `exportToApi` then `importFromApi` does to a
node: force `type` to `"electrical"`, keep only the component type of `data`
(the label is dropped), fill measured defaults of 96, and default
`selected`/`dragging` to `false`. -/
def exportImportNode (node : CircuitNode) : CircuitNode :=
  { id := node.id
    type := some "electrical"
    position := node.position
    data := { type := node.data.type, label := none }
    measured := some
      { width := some (jsOrRat (node.measured.bind fun m => m.width) 96)
        height := some (jsOrRat (node.measured.bind fun m => m.height) 96) }
    selected := some (jsOrBool node.selected false)
    dragging := some (jsOrBool node.dragging false) }

/-- What one round trip through `exportToApi` then `importFromApi` does to an
edge: fill handle defaults `"right"`/`"left"`, force `type` to `"step"` and
collapse a falsy style. -/
def exportImportEdge (edge : Edge) : Edge :=
  { id := edge.id
    source := edge.source
    sourceHandle := some (jsOrStr edge.sourceHandle "right")
    target := edge.target
    targetHandle := some (jsOrStr edge.targetHandle "left")
    type := some "step"
    style := jsStrOrUndef edge.style }

/-!
## Helper lemmas: decimal digit strings
-/

theorem natDigitsAux_congr : ∀ f₁ f₂ n, n < f₁ → n < f₂ →
    natDigitsAux f₁ n = natDigitsAux f₂ n := by
  intro f₁
  induction f₁ with
  | zero => intro f₂ n h₁ _; omega
  | succ a ih =>
    intro f₂ n h₁ h₂
    cases f₂ with
    | zero => omega
    | succ b =>
      simp only [natDigitsAux]
      by_cases h : n < 10
      · simp [h]
      · have hn : 0 < n := by omega
        have hd : n / 10 < n := Nat.div_lt_self hn (by omega)
        simp only [h, if_false]
        rw [ih b (n / 10) (by omega) (by omega)]

theorem natDigits_def (n : Nat) :
    natDigits n =
      if n < 10 then [Nat.digitChar n]
      else natDigits (n / 10) ++ [Nat.digitChar (n % 10)] := by
  by_cases h : n < 10
  · simp [natDigits, natDigitsAux, h]
  · have hn : 0 < n := by omega
    have hd : n / 10 < n := Nat.div_lt_self hn (by omega)
    simp only [natDigits, natDigitsAux, h, if_false]
    rw [natDigitsAux_congr n (n / 10 + 1) (n / 10) (by omega) (by omega)]
    conv_lhs => rw [natDigitsAux]

theorem natDigits_ne_nil (n : Nat) : natDigits n ≠ [] := by
  rw [natDigits_def]
  split <;> simp

theorem isDigits_natDigits (n : Nat) : isDigits (natDigits n) = true := by
  induction n using Nat.strong_induction_on with
  | _ n ih =>
    rw [natDigits_def]
    by_cases h : n < 10
    · simp only [h, if_true]
      exact (by decide : ∀ m, m < 10 → isDigits [Nat.digitChar m] = true) n h
    · have hn : 0 < n := by omega
      simp only [h, if_false, isDigits, List.all_append]
      rw [show (List.all (natDigits (n / 10)) fun c => decide ('0' ≤ c ∧ c ≤ '9')) =
            isDigits (natDigits (n / 10)) from rfl,
        ih (n / 10) (Nat.div_lt_self hn (by omega))]
      exact (by decide : ∀ m, m < 10 →
        (List.all [Nat.digitChar m] fun c => decide ('0' ≤ c ∧ c ≤ '9')) = true)
        (n % 10) (by omega)

theorem digitsVal_natDigits (n : Nat) : digitsVal (natDigits n) = n := by
  induction n using Nat.strong_induction_on with
  | _ n ih =>
    rw [natDigits_def]
    by_cases h : n < 10
    · simp only [h, if_true]
      exact (by decide : ∀ m, m < 10 → digitsVal [Nat.digitChar m] = m) n h
    · have hn : 0 < n := by omega
      simp only [h, if_false, digitsVal, List.foldl_append]
      rw [show List.foldl (fun n c => n * 10 + (c.toNat - '0'.toNat)) 0
            (natDigits (n / 10)) = digitsVal (natDigits (n / 10)) from rfl,
        ih (n / 10) (Nat.div_lt_self hn (by omega))]
      have hc : ∀ m, m < 10 → (Nat.digitChar m).toNat - '0'.toNat = m := by decide
      simp only [List.foldl_cons, List.foldl_nil, hc (n % 10) (by omega)]
      omega

theorem decodeDigits_natDigits (n : Nat) : decodeDigits (natDigits n) = some n := by
  simp [decodeDigits, natDigits_ne_nil, isDigits_natDigits, digitsVal_natDigits]

theorem natDigits_inj {m n : Nat} (h : natDigits m = natDigits n) : m = n := by
  have := digitsVal_natDigits m
  rw [h, digitsVal_natDigits] at this
  omega

theorem natStr_inj {m n : Nat} (h : natStr m = natStr n) : m = n :=
  natDigits_inj (congrArg String.data h)

theorem natDigits_no_dash (n : Nat) : '-' ∉ natDigits n := by
  intro hmem
  have hall := isDigits_natDigits n
  rw [isDigits, List.all_eq_true] at hall
  have := hall '-' hmem
  simp at this

/-!
## Helper lemmas: node id structure
-/

theorem split_at_dash :
    ∀ (a₁ : List Char) {a₂ b₁ b₂ : List Char}, '-' ∉ a₁ → '-' ∉ a₂ →
      a₁ ++ '-' :: b₁ = a₂ ++ '-' :: b₂ → a₁ = a₂ ∧ b₁ = b₂ := by
  intro a₁
  induction a₁ with
  | nil =>
    intro a₂ b₁ b₂ _ h₂ heq
    cases a₂ with
    | nil => simpa using heq
    | cons c t =>
      simp only [List.nil_append, List.cons_append, List.cons.injEq] at heq
      exact absurd (heq.1 ▸ List.mem_cons_self c t) h₂
  | cons c t ih =>
    intro a₂ b₁ b₂ h₁ h₂ heq
    cases a₂ with
    | nil =>
      simp only [List.cons_append, List.nil_append, List.cons.injEq] at heq
      exact absurd (heq.1 ▸ List.mem_cons_self c t) h₁
    | cons c' t' =>
      simp only [List.cons_append, List.cons.injEq] at heq
      have hrec := ih (fun hm => h₁ (List.mem_cons_of_mem c hm))
        (fun hm => h₂ (List.mem_cons_of_mem c' hm)) heq.2
      exact ⟨by rw [heq.1, hrec.1], hrec.2⟩

theorem dash_not_mem_componentTypeStr (t : ComponentType) :
    '-' ∉ (componentTypeStr t).data := by
  cases t <;> decide

theorem componentTypeStr_data_inj {t t' : ComponentType}
    (h : (componentTypeStr t).data = (componentTypeStr t').data) : t = t' := by
  cases t <;> cases t' <;> first | rfl | exact absurd h (by decide)

theorem mkNodeId_data (t : ComponentType) (n : Nat) :
    (mkNodeId t n).data = (componentTypeStr t).data ++ '-' :: natDigits n := by
  simp [mkNodeId, natStr]

theorem mkNodeId_inj {t t' : ComponentType} {m n : Nat}
    (h : mkNodeId t m = mkNodeId t' n) : t = t' ∧ m = n := by
  have hd := congrArg String.data h
  rw [mkNodeId_data, mkNodeId_data] at hd
  obtain ⟨h₁, h₂⟩ := split_at_dash _ (dash_not_mem_componentTypeStr t)
    (dash_not_mem_componentTypeStr t') hd
  exact ⟨componentTypeStr_data_inj h₁, natDigits_inj h₂⟩

theorem stripLeadChars_append (xs : List Char) :
    ∀ ys, stripLeadChars xs (xs ++ ys) = some ys := by
  induction xs with
  | nil => intro ys; rfl
  | cons p ps ih => intro ys; simp [stripLeadChars, ih]

theorem suffixOf_mkNodeId_same (t : ComponentType) (n : Nat) :
    suffixOf t (mkNodeId t n) = some n := by
  have hdata : (mkNodeId t n).data = (componentTypeStr t ++ "-").data ++ natDigits n := by
    rw [mkNodeId_data]
    simp
  rw [suffixOf, hdata, stripLeadChars_append]
  exact decodeDigits_natDigits n

theorem suffixOf_mkNodeId_ne {t t' : ComponentType} (h : t ≠ t') (n : Nat) :
    suffixOf t (mkNodeId t' n) = none := by
  have hdata : (mkNodeId t' n).data = (componentTypeStr t' ++ "-").data ++ natDigits n := by
    rw [mkNodeId_data]
    simp
  rw [suffixOf, hdata]
  cases t <;> cases t' <;> first | exact absurd rfl h | rfl

/-!
## Helper lemmas: sequences of addComponent calls
-/

theorem addComponent_snd (st : CircuitEditorState) (t : ComponentType) :
    (addComponent st t).2 = mkNodeId t st.nodeCounter := rfl

theorem addComponent_counter (st : CircuitEditorState) (t : ComponentType) :
    (addComponent st t).1.nodeCounter = st.nodeCounter + 1 := rfl

theorem runAdds_cons (st : CircuitEditorState) (t : ComponentType)
    (ts : List ComponentType) :
    (runAdds st (t :: ts)).2 =
      mkNodeId t st.nodeCounter :: (runAdds (addComponent st t).1 ts).2 := rfl

theorem runAdds_mem :
    ∀ (ts : List ComponentType) (st : CircuitEditorState) (x : String),
      x ∈ (runAdds st ts).2 → ∃ t n, st.nodeCounter ≤ n ∧ x = mkNodeId t n := by
  intro ts
  induction ts with
  | nil => intro st x hx; simp [runAdds] at hx
  | cons t ts ih =>
    intro st x hx
    rw [runAdds_cons] at hx
    rcases List.mem_cons.mp hx with h | h
    · exact ⟨t, st.nodeCounter, Nat.le_refl _, h⟩
    · obtain ⟨t', n, hn, hx'⟩ := ih (addComponent st t).1 x h
      rw [addComponent_counter] at hn
      exact ⟨t', n, by omega, hx'⟩

theorem runAdds_pairwise_ne :
    ∀ (ts : List ComponentType) (st : CircuitEditorState),
      ((runAdds st ts).2).Pairwise (· ≠ ·) := by
  intro ts
  induction ts with
  | nil => intro st; simp [runAdds]
  | cons t ts ih =>
    intro st
    rw [runAdds_cons, List.pairwise_cons]
    refine ⟨fun y hy heq => ?_, ih (addComponent st t).1⟩
    obtain ⟨t', n, hn, hy'⟩ := runAdds_mem ts (addComponent st t).1 y hy
    rw [addComponent_counter] at hn
    rw [hy'] at heq
    have := (mkNodeId_inj heq).2
    omega

theorem runAdds_suffix_lb :
    ∀ (ts : List ComponentType) (st : CircuitEditorState) (t : ComponentType)
      (x : Nat), x ∈ ((runAdds st ts).2.filterMap (suffixOf t)) →
      st.nodeCounter ≤ x := by
  intro ts
  induction ts with
  | nil => intro st t x hx; simp [runAdds] at hx
  | cons t₀ ts ih =>
    intro st t x hx
    rw [runAdds_cons, List.filterMap_cons] at hx
    by_cases h : t₀ = t
    · subst h
      rw [suffixOf_mkNodeId_same] at hx
      rcases List.mem_cons.mp hx with h' | h'
      · omega
      · have := ih (addComponent st t₀).1 t₀ x h'
        rw [addComponent_counter] at this
        omega
    · rw [suffixOf_mkNodeId_ne (fun heq => h heq.symm)] at hx
      have := ih (addComponent st t₀).1 t x hx
      rw [addComponent_counter] at this
      omega

theorem runAdds_suffix_chain :
    ∀ (ts : List ComponentType) (st : CircuitEditorState) (t : ComponentType),
      (((runAdds st ts).2).filterMap (suffixOf t)).Chain' (· < ·) := by
  intro ts
  induction ts with
  | nil => intro st t; simp [runAdds]
  | cons t₀ ts ih =>
    intro st t
    rw [runAdds_cons, List.filterMap_cons]
    by_cases h : t₀ = t
    · subst h
      rw [suffixOf_mkNodeId_same]
      rw [List.chain'_cons']
      refine ⟨fun y hy => ?_, ih (addComponent st t₀).1 t₀⟩
      have := runAdds_suffix_lb ts (addComponent st t₀).1 t₀ y
        (List.mem_of_mem_head? hy)
      rw [addComponent_counter] at this
      omega
    · rw [suffixOf_mkNodeId_ne (fun heq => h heq.symm)]
      exact ih (addComponent st t₀).1 t

/-!
## Helper lemmas: grid snapping, edge matching, defaulting
-/

theorem jsRound_close (x : Rat) : |((jsRound x : Int) : Rat) - x| ≤ 1 / 2 := by
  have h₁ : ((⌊x + 1 / 2⌋ : Int) : Rat) ≤ x + 1 / 2 := Int.floor_le _
  have h₂ : x + 1 / 2 < (⌊x + 1 / 2⌋ : Int) + 1 := Int.lt_floor_add_one _
  rw [jsRound, abs_le]
  constructor <;> linarith

theorem snap_coord_close (x : Rat) :
    |((jsRound (x / gridSize) : Int) : Rat) * gridSize - x| ≤ 10 := by
  have h := jsRound_close (x / gridSize)
  rw [abs_le] at h ⊢
  rw [gridSize] at *
  constructor <;> nlinarith [h.1, h.2]

theorem snap_23_neg11 : snapToGrid ⟨23, -11⟩ = ⟨20, -20⟩ := by
  have hx : ⌊(23 : Rat) / 20 + 1 / 2⌋ = 1 := by
    rw [Int.floor_eq_iff] ; norm_num
  have hy : ⌊(-11 : Rat) / 20 + 1 / 2⌋ = -1 := by
    rw [Int.floor_eq_iff] ; norm_num
  simp only [snapToGrid, jsRound, gridSize, Pos.mk.injEq]
  rw [hx, hy]
  norm_num

theorem snap_400_300 : snapToGrid ⟨400, 300⟩ = ⟨400, 300⟩ := by
  have hx : ⌊(400 : Rat) / 20 + 1 / 2⌋ = 20 := by
    rw [Int.floor_eq_iff] ; norm_num
  have hy : ⌊(300 : Rat) / 20 + 1 / 2⌋ = 15 := by
    rw [Int.floor_eq_iff] ; norm_num
  simp only [snapToGrid, jsRound, gridSize, Pos.mk.injEq]
  rw [hx, hy]
  norm_num

theorem addComponent_fresh_nodes (t : ComponentType) :
    (addComponent freshState t).1.nodes =
      [{ id := mkNodeId t 1, type := some "electrical", position := ⟨400, 300⟩
         data := { type := t, label := none }, measured := none
         selected := none, dragging := none }] := by
  simp [addComponent, addComponentInternal, freshState, snap_400_300]

theorem edgeMatches_comm (a b : String) : edgeMatches b a = edgeMatches a b := by
  funext e
  simp only [edgeMatches]
  rw [Bool.or_comm]

theorem jsStrOrUndef_idem (v : Option String) :
    jsStrOrUndef (jsStrOrUndef v) = jsStrOrUndef v := by
  rcases v with _ | s
  · rfl
  · by_cases h : s = "" <;> simp [jsStrOrUndef, h]

/-!
## Claim theorems
-/

/-- C1 (counterexample): the node counter is a single global counter, so in the
claimed scenario the second call `addComponent("resistor")` returns
`"resistor-2"`, not `"resistor-1"`. -/
theorem claim1_counterexample :
    (addComponent (addComponent freshState .voltage).1 .resistor).2 = "resistor-2" ∧
    "resistor-2" ≠ "resistor-1" := by
  decide

/-- C1 (amended): from a fresh state, `addComponent("voltage")` returns
`"voltage-1"`, `addComponent("resistor")` returns `"resistor-2"` (a single
global counter numbers all components), `addEdge("voltage-1","resistor-1")`
returns `"evoltage-1-resistor-1"` (creating the edge even though no node
`"resistor-1"` exists), and `getCircuitStats()` afterwards returns
`{totalNodes: 2, totalEdges: 1, componentCounts: {voltage: 1, resistor: 1,
capacitor: 0, inductor: 0}}`. -/
theorem claim1_amended :
    (let r₁ := addComponent freshState .voltage
     let r₂ := addComponent r₁.1 .resistor
     let r₃ := addEdge r₂.1 "voltage-1" "resistor-1" none none
     r₁.2 = "voltage-1" ∧ r₂.2 = "resistor-2" ∧ r₃.2 = "evoltage-1-resistor-1" ∧
       getCircuitStats r₃.1 =
         { totalNodes := 2
           totalEdges := 1
           componentCounts :=
             { voltage := 1, resistor := 1, capacitor := 0, inductor := 0 } }) := by
  decide

/-- C3: after `removeNode(n)`, no edge with `n` as source or target survives
(`getConnectedEdges(n)` is empty) and `getNodeById(n)` is `undefined`. -/
theorem claim3_removeNode_cascades :
    ∀ (st : CircuitEditorState) (n : String),
      getConnectedEdges (removeNode st n).1 n = [] ∧
      getNodeById (removeNode st n).1 n = none := by
  intro st n
  constructor
  · rw [getConnectedEdges, List.filter_eq_nil_iff]
    intro e he
    simp only [removeNode, List.mem_filter, Bool.and_eq_true, bne_iff_ne, ne_eq] at he
    simp [he.2.1, he.2.2]
  · rw [getNodeById, List.find?_eq_none]
    intro node hnode
    simp only [removeNode, List.mem_filter, bne_iff_ne, ne_eq] at hnode
    simp [hnode.2]

/-- C4 (counterexample): `importCircuit` assigns the supplied `nodeCounter`
verbatim when it is nonzero, not the maximum of it and node count + 1: a
payload of two nodes with `nodeCounter = 1` leaves the counter at 1 (the
claimed maximum is 3), and the next `addComponent("voltage")` mints
`"voltage-1"`, colliding with an imported id. -/
theorem claim4_counterexample :
    (let node₁ : CircuitNode :=
       { id := "voltage-1"
         type := some "electrical"
         position := ⟨0, 0⟩
         data := { type := .voltage, label := none }
         measured := none
         selected := none
         dragging := none }
     let node₂ : CircuitNode := { node₁ with id := "voltage-2" }
     let st := importCircuit freshState
       { nodes := [node₁, node₂]
         edges := []
         metadata := some { nodeCounter := some 1 } }
     st.nodeCounter = 1 ∧ st.nodeCounter ≠ max 1 (st.nodes.length + 1) ∧
       (addComponent st .voltage).2 = "voltage-1" ∧
       node₁.id = "voltage-1") := by
  decide

/-- C4 (amended): `importCircuit` sets the node counter to the supplied
`nodeCounter` whenever that value is present and nonzero — even when it is
smaller than node count + 1, so collisions with imported ids are possible —
and to node count + 1 only when the supplied value is absent or zero;
`importFromApi` passes its payload's counter through the same rule. -/
theorem claim4_amended :
    (∀ (st : CircuitEditorState) (payload : ImportPayload) (k : Nat),
      payload.metadata.bind (fun m => m.nodeCounter) = some k → k ≠ 0 →
      (importCircuit st payload).nodeCounter = k) ∧
    (∀ (st : CircuitEditorState) (payload : ImportPayload),
      payload.metadata.bind (fun m => m.nodeCounter) = none ∨
        payload.metadata.bind (fun m => m.nodeCounter) = some 0 →
      (importCircuit st payload).nodeCounter = payload.nodes.length + 1) ∧
    (∀ (st : CircuitEditorState) (apiModel : SvelteFlowModel),
      apiModel.metadata.nodeCounter ≠ 0 →
      (importFromApi st apiModel).nodeCounter = apiModel.metadata.nodeCounter) := by
  refine ⟨fun st payload k hk hk0 => ?_, fun st payload h => ?_,
    fun st apiModel h => ?_⟩
  · simp [importCircuit, jsOrNat, hk, hk0]
  · rcases h with h | h <;> simp [importCircuit, jsOrNat, h]
  · simp [importFromApi, importCircuit, jsOrNat, h]

/-- C4 (witness for the amended theorem): a payload with supplied counter 5 and
one node yields counter 5. -/
theorem claim4_amended_witness :
    (importCircuit freshState
      { nodes := []
        edges := []
        metadata := some { nodeCounter := some 5 } }).nodeCounter = 5 :=
  claim4_amended.1 freshState
    { nodes := [], edges := [], metadata := some { nodeCounter := some 5 } }
    5 rfl (by decide)

/-- C6: across any run of `addComponent` calls the returned node ids are
pairwise distinct; for each component-type prefix the numeric suffixes of the
returned ids with that prefix are strictly increasing in call order; and
`removeNode` never changes the node counter. -/
theorem claim6_id_uniqueness :
    (∀ (st : CircuitEditorState) (ts : List ComponentType),
      ((runAdds st ts).2).Pairwise (· ≠ ·)) ∧
    (∀ (st : CircuitEditorState) (ts : List ComponentType) (t : ComponentType),
      (((runAdds st ts).2).filterMap (suffixOf t)).Chain' (· < ·)) ∧
    (∀ (st : CircuitEditorState) (nodeId : String),
      ((removeNode st nodeId).1).nodeCounter = st.nodeCounter) :=
  ⟨fun st ts => runAdds_pairwise_ne ts st,
   fun st ts t => runAdds_suffix_chain ts st t,
   fun _ _ => rfl⟩

/-- C9 (counterexample): when a dangling edge references a node id absent from
the node collection, `removeNode` on that id returns `false` but still removes
the edge, so the state is not left unchanged. -/
theorem claim9_counterexample :
    (let st := (addEdge freshState "a" "b" none none).1
     (removeNode st "a").2 = false ∧ (removeNode st "a").1 ≠ st) := by
  decide

/-- C9 (amended): for a node id absent from the node collection, `removeNode`
returns `false` and leaves the node collection and the node counter unchanged;
it still filters the edge collection, so the whole state is unchanged exactly
when no (dangling) edge references the id. -/
theorem claim9_amended :
    ∀ (st : CircuitEditorState) (nodeId : String),
      (∀ node ∈ st.nodes, node.id ≠ nodeId) →
      ((removeNode st nodeId).2 = false ∧
       (removeNode st nodeId).1.nodes = st.nodes ∧
       (removeNode st nodeId).1.nodeCounter = st.nodeCounter ∧
       ((∀ edge ∈ st.edges, edge.source ≠ nodeId ∧ edge.target ≠ nodeId) →
         (removeNode st nodeId).1 = st)) := by
  intro st nodeId h
  have hn : (st.nodes.filter fun node => node.id != nodeId) = st.nodes := by
    rw [List.filter_eq_self]
    intro node hnode
    simpa using h node hnode
  refine ⟨by simp [removeNode, hn], by simp [removeNode, hn], rfl, fun he => ?_⟩
  have hedges : (st.edges.filter fun edge =>
      edge.source != nodeId && edge.target != nodeId) = st.edges := by
    rw [List.filter_eq_self]
    intro edge hedge
    have := he edge hedge
    simp [this.1, this.2]
  simp [removeNode, hn, hedges]

/-- C9 (witness for the amended theorem): removing the absent id `"a"` from a
fresh state returns `false` and changes nothing. -/
theorem claim9_amended_witness :
    (removeNode freshState "a").2 = false ∧
    (removeNode freshState "a").1.nodes = freshState.nodes ∧
    (removeNode freshState "a").1.nodeCounter = freshState.nodeCounter ∧
    ((∀ edge ∈ freshState.edges,
        edge.source ≠ "a" ∧ edge.target ≠ "a") →
      (removeNode freshState "a").1 = freshState) :=
  claim9_amended freshState "a" (by intro node hnode; simp [freshState] at hnode)

/-- C10: edge ids are not kept unique: after `addEdge("a","b")` creates the
edge `"ea-b"`, the call `addEdge("c","d","ea-b")` appends a second edge with
the same id `"ea-b"` (returning it and growing the collection), after which
`getEdgeById("ea-b")` returns the earlier edge and `removeEdge("ea-b")`
removes both edges at once. -/
theorem claim10_duplicate_edge_ids :
    (let e₁ : Edge :=
       { id := "ea-b", source := "a", sourceHandle := none, target := "b"
         targetHandle := none, type := some "step"
         style := some defaultEdgeStyle }
     let e₂ : Edge :=
       { id := "ea-b", source := "c", sourceHandle := none, target := "d"
         targetHandle := none, type := some "step"
         style := some defaultEdgeStyle }
     let st₁ := (addEdge freshState "a" "b" none none).1
     let r₂ := addEdge st₁ "c" "d" (some "ea-b") none
     st₁.edges = [e₁] ∧ r₂.2 = "ea-b" ∧ r₂.1.edges = [e₁, e₂] ∧
       getEdgeById r₂.1 "ea-b" = some e₁ ∧
       (removeEdge r₂.1 "ea-b").1.edges = [] ∧
       (removeEdge r₂.1 "ea-b").2 = true) := by
  decide

/-- C2: `addEdge(a, b)` followed by `addEdge(b, a)` returns the same edge id
both times, whatever `edgeId`/`style` arguments are supplied; and `addEdge`
preserves the invariant that at most one edge connects any unordered endpoint
pair. -/
theorem claim2_addEdge_idempotent :
    (∀ (st : CircuitEditorState) (a b : String) (e₁ s₁ e₂ s₂ : Option String),
      (addEdge (addEdge st a b e₁ s₁).1 b a e₂ s₂).2 = (addEdge st a b e₁ s₁).2) ∧
    (∀ (st : CircuitEditorState) (a b : String) (e s : Option String),
      atMostOneEdgePerPair st → atMostOneEdgePerPair (addEdge st a b e s).1) := by
  constructor
  · intro st a b e₁ s₁ e₂ s₂
    rcases hfind : st.edges.find? (edgeMatches a b) with _ | ex
    · simp only [addEdge, hfind]
      rw [edgeMatches_comm, List.find?_append, hfind]
      simp [List.find?, edgeMatches]
    · simp only [addEdge, hfind, edgeMatches_comm]
  · intro st a b e s hinv c d
    rcases hfind : st.edges.find? (edgeMatches a b) with _ | ex
    · have hnone := List.find?_eq_none.mp hfind
      simp only [addEdge, hfind]
      rw [List.filter_append]
      by_cases hm : edgeMatches c d
          { id := jsOrStr e ("e" ++ a ++ "-" ++ b), source := a,
            sourceHandle := none, target := b, targetHandle := none,
            type := some "step", style := some (jsOrStr s defaultEdgeStyle) }
      · have hcd : (c = a ∧ d = b) ∨ (c = b ∧ d = a) := by
          simp [edgeMatches] at hm
          tauto
        have hfilter : st.edges.filter (edgeMatches c d) = [] := by
          rw [List.filter_eq_nil_iff]
          intro x hx
          rcases hcd with ⟨rfl, rfl⟩ | ⟨rfl, rfl⟩
          · exact hnone x hx
          · rw [edgeMatches_comm]
            exact hnone x hx
        rw [hfilter]
        simp [hm]
      · rw [List.filter_cons]
        simp only [hm, if_false]
        simpa using hinv c d
    · simpa only [addEdge, hfind] using hinv c d

/-- C2 (witness): the idempotence at the pair ("a","b") on the fresh state, and
the invariant after a first `addEdge` on the fresh state. -/
theorem claim2_witness :
    (addEdge (addEdge freshState "a" "b" none none).1 "b" "a" none none).2 =
      (addEdge freshState "a" "b" none none).2 ∧
    atMostOneEdgePerPair (addEdge freshState "a" "b" none none).1 :=
  ⟨claim2_addEdge_idempotent.1 freshState "a" "b" none none none none,
   claim2_addEdge_idempotent.2 freshState "a" "b" none none
     (by intro a b; simp [atMostOneEdgePerPair, freshState])⟩

/-- C5 (counterexample): the round trip is not faithful up to only the listed
defaulted fields: a reachable state whose single node carries the display
label "R1" (set through `updateNodeData`) comes back from
`exportToApi`/`importFromApi` with the label dropped, and the label is none of
the measured/handle/selected/dragging defaults. -/
theorem claim5_counterexample :
    (let st₀ := (addComponent freshState .voltage).1
     let st₁ := (updateNodeData st₀ "voltage-1" ⟨none, some (some "R1")⟩).1
     let st' := importFromApi freshState (exportToApi st₁ "2024-01-01T00:00:00Z")
     st₁.nodes.map (fun nd => nd.id) = ["voltage-1"] ∧
     st'.nodes.map (fun nd => nd.id) = ["voltage-1"] ∧
     st₁.nodes.map (fun nd => nd.data.label) = [some "R1"] ∧
     st'.nodes.map (fun nd => nd.data.label) = [none]) := by
  decide

/-- C5 (amended): `exportToApi` followed by `importFromApi` on a fresh state
reproduces the node and edge collections up to the defaulting that the round
trip performs — measured dimensions default to 96×96, `sourceHandle` to
`"right"` and `targetHandle` to `"left"`, `selected`/`dragging` to `false` —
and additionally forces node `type` to `"electrical"`, edge `type` to
`"step"`, collapses falsy styles, and drops node display labels; the node
counter survives the round trip whenever it is nonzero. -/
theorem claim5_amended :
    ∀ (st : CircuitEditorState) (now : String), st.nodeCounter ≠ 0 →
      ((importFromApi freshState (exportToApi st now)).nodes =
         st.nodes.map exportImportNode ∧
       (importFromApi freshState (exportToApi st now)).edges =
         st.edges.map exportImportEdge ∧
       (importFromApi freshState (exportToApi st now)).nodeCounter =
         st.nodeCounter) := by
  intro st now h
  refine ⟨?_, ?_, ?_⟩
  · simp only [importFromApi, importCircuit, exportToApi, List.map_map]
    rfl
  · simp only [importFromApi, importCircuit, exportToApi, List.map_map]
    apply List.map_congr_left
    intro e he
    simp [exportImportEdge, jsStrOrUndef_idem, Function.comp,
      show jsOrStr (some "step") "step" = "step" from rfl]
  · simp [importFromApi, importCircuit, exportToApi, jsOrNat, h]

/-- C5 (witness for the amended theorem): the round trip on a one-node state. -/
theorem claim5_amended_witness :
    (let st := (addComponent freshState .voltage).1
     (importFromApi freshState (exportToApi st "2024-01-01T00:00:00Z")).nodes =
       st.nodes.map exportImportNode ∧
     (importFromApi freshState (exportToApi st "2024-01-01T00:00:00Z")).edges =
       st.edges.map exportImportEdge ∧
     (importFromApi freshState (exportToApi st "2024-01-01T00:00:00Z")).nodeCounter =
       st.nodeCounter) :=
  claim5_amended (addComponent freshState .voltage).1 "2024-01-01T00:00:00Z"
    (by decide)

/-- C7: for a node present in the state, `updateNodePosition` returns `true`
and overwrites exactly that node's position with the input snapped to the
grid; each snapped axis is a multiple of 20 within distance 10 of the input
(the nearest multiple), and the concrete input (23, -11) snaps to (20, -20). -/
theorem claim7_updateNodePosition :
    (∀ (st : CircuitEditorState) (nodeId : String) (node : CircuitNode) (p : Pos),
      node ∈ st.nodes → node.id = nodeId →
      ((updateNodePosition st nodeId p).2 = true ∧
       (∃ i node', st.nodes.findIdx? (fun nd => nd.id == nodeId) = some i ∧
         st.nodes[i]? = some node' ∧
         (updateNodePosition st nodeId p).1.nodes =
           st.nodes.set i { node' with position := snapToGrid p }) ∧
       (∃ kx : Int, (snapToGrid p).x = 20 * kx) ∧
       (∃ ky : Int, (snapToGrid p).y = 20 * ky) ∧
       |(snapToGrid p).x - p.x| ≤ 10 ∧ |(snapToGrid p).y - p.y| ≤ 10)) ∧
    snapToGrid ⟨23, -11⟩ = ⟨20, -20⟩ := by
  constructor
  · intro st nodeId node p hmem hid
    have hfind : st.nodes.findIdx? (fun nd => nd.id == nodeId) =
        some (st.nodes.findIdx (fun nd => nd.id == nodeId)) :=
      List.findIdx?_eq_some_of_exists ⟨node, hmem, by simp [hid]⟩
    obtain ⟨hlt, -, -⟩ := List.findIdx?_eq_some_iff_getElem.mp hfind
    refine ⟨?_, ⟨st.nodes.findIdx (fun nd => nd.id == nodeId),
      st.nodes.get ⟨_, hlt⟩, hfind, ?_, ?_⟩, ?_, ?_, ?_, ?_⟩
    · simp [updateNodePosition, hfind]
    · simp [List.getElem?_eq_getElem hlt]
    · simp only [updateNodePosition, hfind]
      rw [List.modify_eq_set_get _ hlt]
    · exact ⟨jsRound (p.x / gridSize), by
        show ((jsRound (p.x / gridSize) : Int) : Rat) * gridSize =
          20 * ((jsRound (p.x / gridSize) : Int) : Rat)
        rw [gridSize]; ring⟩
    · exact ⟨jsRound (p.y / gridSize), by
        show ((jsRound (p.y / gridSize) : Int) : Rat) * gridSize =
          20 * ((jsRound (p.y / gridSize) : Int) : Rat)
        rw [gridSize]; ring⟩
    · exact snap_coord_close p.x
    · exact snap_coord_close p.y
  · exact snap_23_neg11

/-- C7 (witness): moving the one node of a one-node state to (23, -11). -/
theorem claim7_witness :
    (let st := (addComponent freshState .voltage).1
     (updateNodePosition st "voltage-1" ⟨23, -11⟩).2 = true ∧
     (∃ i node', st.nodes.findIdx? (fun nd => nd.id == "voltage-1") = some i ∧
       st.nodes[i]? = some node' ∧
       (updateNodePosition st "voltage-1" ⟨23, -11⟩).1.nodes =
         st.nodes.set i { node' with position := snapToGrid ⟨23, -11⟩ }) ∧
     (∃ kx : Int, (snapToGrid (⟨23, -11⟩ : Pos)).x = 20 * kx) ∧
     (∃ ky : Int, (snapToGrid (⟨23, -11⟩ : Pos)).y = 20 * ky) ∧
     |(snapToGrid (⟨23, -11⟩ : Pos)).x - (23 : Rat)| ≤ 10 ∧
     |(snapToGrid (⟨23, -11⟩ : Pos)).y - (-11 : Rat)| ≤ 10) :=
  claim7_updateNodePosition.1 (addComponent freshState .voltage).1 "voltage-1"
    { id := "voltage-1", type := some "electrical", position := ⟨400, 300⟩
      data := { type := .voltage, label := none }, measured := none
      selected := none, dragging := none }
    ⟨23, -11⟩
    (by rw [addComponent_fresh_nodes]; exact List.mem_singleton.mpr rfl) rfl

/-- C8: `validateCircuit` always reports `isValid = true` with an empty error
list; on an empty node collection it emits no warnings; and on a state with
exactly one resistor node and no edges it emits exactly the two warnings about
disconnected components and a missing voltage source, in that order. -/
theorem claim8_validateCircuit :
    (∀ st : CircuitEditorState,
      (validateCircuit st).isValid = true ∧ (validateCircuit st).errors = []) ∧
    (∀ st : CircuitEditorState, st.nodes = [] →
      (validateCircuit st).warnings = []) ∧
    (∀ (st : CircuitEditorState) (node : CircuitNode),
      st.nodes = [node] → node.data.type = .resistor → st.edges = [] →
      (validateCircuit st).warnings =
        ["1 disconnected component(s) found",
         "No voltage source found in circuit"]) := by
  refine ⟨fun st => ⟨rfl, rfl⟩, fun st h => ?_, fun st node h₁ h₂ h₃ => ?_⟩
  · simp [validateCircuit, getNodesByType, h]
  · simp [validateCircuit, getConnectedEdges, getNodesByType, h₁, h₂, h₃,
      show natStr 1 ++ " disconnected component(s) found" =
        "1 disconnected component(s) found" from rfl,
      show (ComponentType.resistor == ComponentType.voltage) = false from rfl]

/-- C8 (witness): the empty state validates with no warnings and a one-resistor
state validates with the two warnings. -/
theorem claim8_witness :
    (validateCircuit freshState).isValid = true ∧
    (validateCircuit freshState).warnings = [] ∧
    (validateCircuit (addComponent freshState .resistor).1).warnings =
      ["1 disconnected component(s) found",
       "No voltage source found in circuit"] :=
  ⟨(claim8_validateCircuit.1 freshState).1,
   claim8_validateCircuit.2.1 freshState rfl,
   claim8_validateCircuit.2.2 (addComponent freshState .resistor).1
     { id := "resistor-1", type := some "electrical", position := ⟨400, 300⟩
       data := { type := .resistor, label := none }, measured := none
       selected := none, dragging := none }
     (by rw [addComponent_fresh_nodes]; rfl) rfl rfl⟩

end CircuitEditor
